import Mathlib

/-
Verification of the capture-match-render core of the tiger-dorm-security
frontend (frontend/src/app/page.tsx), as a shallow embedding in Lean 4.

Conventions of the embedding:
- A TypeScript `string | null` field is an `Option String`.  JavaScript
  truthiness of such a value (`if (s) ...`) is false exactly for `null`
  and for the empty string, and the embedding preserves that distinction.
- JavaScript numbers used for pixel geometry are embedded as `Rat`
  (arithmetic on them here is exact; no float rounding is relevant to the
  properties proved below, which never compare computed coordinates for
  magnitude).
- React state updates (`setFaces`, `setActiveRoom`, ...) are explicit
  field updates of an `AppState` record; each event handler becomes a
  function `AppState → AppState`.
-/

/-- A detection returned by the matching service (interface FaceMatch). -/
structure FaceMatch where
  x : Rat
  y : Rat
  width : Rat
  height : Rat
  match_filename : Option String
  match_score : Rat
deriving Repr, DecidableEq

/-- An access group (interface Room). -/
structure Room where
  id : String
  name : String
  members : List String
deriving Repr, DecidableEq

/-- Permanent rooms that cannot be deleted (const PERMANENT_ROOM_IDS). -/
def PERMANENT_ROOM_IDS : List String :=
  ["princeton", "butler", "forbes", "mathey", "ncw", "rocky", "whitman", "yeh"]

/-- Per-face authorization exactly as computed inside `drawBoundingBoxes`:
`!activeRoom || (face.match_filename && face.match_filename !== "Unknown"
&& activeRoom.members.includes(face.match_filename))`.  A `null`
match_filename makes the conjunction falsy, and so does the empty string
(JavaScript truthiness of `face.match_filename`). -/
def isAuthorized (activeRoom : Option Room) (face : FaceMatch) : Bool :=
  match activeRoom with
  | none => true
  | some room =>
    match face.match_filename with
    | none => false
    | some s => !(s == "") && !(s == "Unknown") && room.members.contains s

/-- The per-face test inside the securityThreat effect (`faces.some(...)`
body): `if (!face.match_filename || face.match_filename === "Unknown")
return false; return activeRoom.members.includes(face.match_filename)`.
`!face.match_filename` is true for `null` and for the empty string. -/
def faceAuthorizedForThreat (room : Room) (face : FaceMatch) : Bool :=
  match face.match_filename with
  | none => false
  | some s => if s == "" || s == "Unknown" then false else room.members.contains s

/-- The securityThreat useEffect (page.tsx lines 129-144): no active room or
an empty detection list forces the flag false, otherwise the flag is the
negation of `hasAuthorizedPerson`. -/
def securityThreat (activeRoom : Option Room) (faces : List FaceMatch) : Bool :=
  match activeRoom with
  | none => false
  | some room =>
    if faces.length == 0 then false
    else !(faces.any (fun face => faceAuthorizedForThreat room face))

example :
    securityThreat
      (some { id := "r", name := "R", members := ["Alice", "Bob"] })
      [{ x := 0, y := 0, width := 1, height := 1,
         match_filename := some "Alice", match_score := 9/10 },
       { x := 2, y := 2, width := 1, height := 1,
         match_filename := some "Unknown", match_score := 0 }] = false := by decide

example :
    securityThreat
      (some { id := "r", name := "R", members := ["Alice"] })
      [{ x := 0, y := 0, width := 1, height := 1,
         match_filename := some "Charlie", match_score := 8/10 }] = true := by decide

example :
    securityThreat none
      [{ x := 0, y := 0, width := 1, height := 1,
         match_filename := some "Anyone", match_score := 1 }] = false := by decide

/-- The mutable React state of the Home component that the claims touch.
`shouldContinue` is `shouldContinueRef.current`; the combined `rooms` list
is derived state (defaultRooms ++ customRooms, sorted for display) and is
not stored separately here where a claim is about the underlying lists. -/
structure AppState where
  isStreaming : Bool
  isSending : Bool
  shouldContinue : Bool
  error : Option String
  faces : List FaceMatch
  activeRoom : Option Room
  securityThreat : Bool
  defaultRooms : List Room
  customRooms : List Room
  selectedRoom : Option Room
  showEditMembers : Bool
deriving Repr, DecidableEq

/-- Event handler `stopSending` (page.tsx lines 443-447): clear the loop
flag, clear `isSending`, clear the detection list.  Nothing else is
touched. -/
def stopSending (s : AppState) : AppState :=
  { s with shouldContinue := false, isSending := false, faces := [] }

/-- Event handler `startSending` (page.tsx lines 437-441): set the loop
flag and `isSending`, then launch `runContinuousCapture` (the launch
itself is modelled separately by `sampleSchedule`). -/
def startSending (s : AppState) : AppState :=
  { s with shouldContinue := true, isSending := true }

/-- Event handler `stopWebcam` (page.tsx lines 424-435): if a stream is
held, stop its tracks and clear `isStreaming`; then `stopSending()`,
`setFaces([])`, `setActiveRoom(null)`, `setSecurityThreat(false)`. -/
def stopWebcam (s : AppState) : AppState :=
  let s1 := if s.isStreaming then { s with isStreaming := false } else s
  let s2 := stopSending s1
  { s2 with faces := [], activeRoom := none, securityThreat := false }

/-- Outcome of the network phase of one sampling tick: either the `fetch`
or `response.json()` threw (`netFail`), or a JSON body was obtained whose
`faces` field is the given optional list (`ok`). -/
inductive TransportOutcome where
  | netFail : TransportOutcome
  | ok : Option (List FaceMatch) → TransportOutcome
deriving Repr, DecidableEq

/-- Result delivery of `captureAndSendFrame` (page.tsx lines 382-398).
On a throw the catch block runs `setError("Failed to send frame")` and
returns false, leaving `faces` untouched.  On a parsed response it runs
`setFaces(result.faces || [])` and returns true — unconditionally: no
field of the state (in particular not `shouldContinue`) is consulted
before the store is overwritten. -/
def captureAndSendFrame (outcome : TransportOutcome) (s : AppState) :
    AppState × Bool :=
  match outcome with
  | TransportOutcome.netFail =>
    ({ s with error := some "Failed to send frame" }, false)
  | TransportOutcome.ok fs =>
    ({ s with faces := fs.getD [] }, true)

/-- Logical-time trace of `runContinuousCapture` (page.tsx lines 400-406):
started at time `t`, the loop awaits one `captureAndSendFrame` call (its
duration is the next element of `ds`), then awaits a 500 ms `setTimeout`,
then re-checks the flag.  `ds` lists the durations of the samples that ran
before the flag was found false; the result pairs each sample's start time
with its completion time. -/
def sampleSchedule (t : Nat) (ds : List Nat) : List (Nat × Nat) :=
  match ds with
  | [] => []
  | d :: rest => (t, t + d) :: sampleSchedule (t + d + 500) rest

/-- Room deletion (page.tsx lines 298-310): permanent ids are rejected
with an alert and no state change; otherwise the room is filtered out of
`customRooms` and, if it was the selected room, the selection and the
edit-members modal are cleared. -/
def deleteRoom (roomId : String) (s : AppState) : AppState :=
  if PERMANENT_ROOM_IDS.contains roomId then s
  else
    let s1 := { s with customRooms := s.customRooms.filter (fun r => !(r.id == roomId)) }
    if s1.selectedRoom.any (fun r => r.id == roomId) then
      { s1 with selectedRoom := none, showEditMembers := false }
    else s1

/-- The member-list update used by `addMemberToRoom`: append unless
already present (page.tsx lines 321-323 and 333-335). -/
def addMemberIfAbsent (members : List String) (member : String) : List String :=
  if members.contains member then members else members ++ [member]

/-- Member addition (page.tsx lines 313-339): permanent ids are rejected
with an alert and no state change; otherwise the matching custom room
gains the member (no duplicates) and, if it is the selected room, the
selection is updated the same way. -/
def addMemberToRoom (roomId : String) (member : String) (s : AppState) : AppState :=
  if PERMANENT_ROOM_IDS.contains roomId then s
  else
    let s1 := { s with customRooms := s.customRooms.map (fun (room : Room) =>
      if room.id == roomId then
        { room with members := addMemberIfAbsent room.members member }
      else room) }
    if s1.selectedRoom.any (fun r => r.id == roomId) then
      { s1 with selectedRoom := s1.selectedRoom.map (fun (r : Room) =>
        { r with members := addMemberIfAbsent r.members member }) }
    else s1

/-- Member removal (page.tsx lines 342-362): permanent ids are rejected
with an alert and no state change; otherwise the member is filtered out of
the matching custom room and, if it is the selected room, out of the
selection as well. -/
def removeMemberFromRoom (roomId : String) (member : String) (s : AppState) : AppState :=
  if PERMANENT_ROOM_IDS.contains roomId then s
  else
    let s1 := { s with customRooms := s.customRooms.map (fun (room : Room) =>
      if room.id == roomId then
        { room with members := room.members.filter (fun m => !(m == member)) }
      else room) }
    if s1.selectedRoom.any (fun r => r.id == roomId) then
      { s1 with selectedRoom := s1.selectedRoom.map (fun (r : Room) =>
        { r with members := r.members.filter (fun m => !(m == member)) }) }
    else s1

/-- The activeRoom re-synchronization useEffect (page.tsx lines 205-215):
with an active room whose id no longer appears in `rooms`, clear it to
none; with an active room still present, replace it by the directory's
current copy (`rooms.find(r => r.id === activeRoom.id)`). -/
def syncActiveRoom (rooms : List Room) (activeRoom : Option Room) : Option Room :=
  match activeRoom with
  | none => none
  | some ar =>
    if !(rooms.any (fun r => r.id == ar.id)) then none
    else
      match rooms.find? (fun r => r.id == ar.id) with
      | some updated => some updated
      | none => some ar

/-- One 2d-context command issued by `drawBoundingBoxes`.  `clearAll`
covers the canvas resize plus the `clearRect` over the full canvas (both
erase everything previously painted); the remaining constructors carry
the geometry and colors of the visible marks. -/
inductive DrawOp where
  | clearAll : Rat → Rat → DrawOp
  | strokeRect : String → Rat → Rat → Rat → Rat → DrawOp
  | labelBg : Rat → Rat → Rat → Rat → DrawOp
  | labelText : String → String → Rat → Rat → DrawOp
deriving Repr, DecidableEq

/-- The inputs `drawBoundingBoxes` reads: the detection list, the active
room, the displayed size of the video element (clientWidth/clientHeight)
and its native resolution (videoWidth/videoHeight). -/
structure RenderInput where
  faces : List FaceMatch
  activeRoom : Option Room
  displayWidth : Rat
  displayHeight : Rat
  videoWidth : Rat
  videoHeight : Rat
deriving Repr, DecidableEq

/-- The commands painted for one face (body of `faces.forEach` in
page.tsx lines 87-121): color from `isAuthorized`, box scaled by the
independent X/Y factors, then — only when `face.match_filename` is truthy
— an opaque label background and the label text above the box.  `measure`
stands for `ctx.measureText(label).width`, a pure function of the label
under the fixed 16px sans-serif font. -/
def faceOps (measure : String → Rat) (inp : RenderInput) (face : FaceMatch) :
    List DrawOp :=
  let isAuth := isAuthorized inp.activeRoom face
  let boxColor := if isAuth then "#22c55e" else "#dc2626"
  let scaleX := inp.displayWidth / inp.videoWidth
  let scaleY := inp.displayHeight / inp.videoHeight
  let scaledX := face.x * scaleX
  let scaledY := face.y * scaleY
  let scaledWidth := face.width * scaleX
  let scaledHeight := face.height * scaleY
  DrawOp.strokeRect boxColor scaledX scaledY scaledWidth scaledHeight ::
    (match face.match_filename with
     | none => []
     | some label =>
       if label == "" then []
       else
         [DrawOp.labelBg scaledX (scaledY - 22) (measure label + 10) 22,
          DrawOp.labelText boxColor label (scaledX + 5) (scaledY - 6)])

/-- The full command stream of one `drawBoundingBoxes` invocation
(page.tsx lines 60-122): resize canvas to the displayed size and clear it,
then paint every face in order. -/
def drawBoundingBoxes (measure : String → Rat) (inp : RenderInput) : List DrawOp :=
  DrawOp.clearAll inp.displayWidth inp.displayHeight ::
    (inp.faces.map (faceOps measure inp)).flatten

/-- Effect of one command on the canvas content, the list of visible
marks: `clearAll` erases everything, any other command adds its mark. -/
def applyOp (canvas : List DrawOp) (op : DrawOp) : List DrawOp :=
  match op with
  | DrawOp.clearAll _ _ => []
  | op => canvas ++ [op]

/-- Canvas content after running one `drawBoundingBoxes` invocation on a
canvas currently showing `canvas`. -/
def paint (measure : String → Rat) (inp : RenderInput) (canvas : List DrawOp) :
    List DrawOp :=
  (drawBoundingBoxes measure inp).foldl applyOp canvas

/-- A concrete reachable state (camera live, monitoring on, one prior
detection, one seeded and one custom room) used to instantiate theorems. -/
def sampleAppState : AppState :=
  { isStreaming := true, isSending := true, shouldContinue := true,
    error := none,
    faces := [{ x := 10, y := 10, width := 5, height := 5,
                match_filename := some "Alice", match_score := 1 }],
    activeRoom := some { id := "butler", name := "Butler", members := ["Alice"] },
    securityThreat := false,
    defaultRooms := [{ id := "butler", name := "Butler", members := ["Alice"] }],
    customRooms := [{ id := "study", name := "Study", members := ["Bob"] }],
    selectedRoom := none, showEditMembers := false }

/-- A detection delivered by a sample that was already in flight when
monitoring stopped. -/
def lateFace : FaceMatch :=
  { x := 1, y := 1, width := 3, height := 3,
    match_filename := some "Eve", match_score := 1 }

/-- The two authorization tests in the source (overlay coloring and threat
computation) classify every face identically once a room is active. -/
theorem faceAuthorizedForThreat_eq (room : Room) (face : FaceMatch) :
    faceAuthorizedForThreat room face = isAuthorized (some room) face := by
  unfold faceAuthorizedForThreat isAuthorized
  cases face.match_filename with
  | none => rfl
  | some s => cases h1 : s == "" <;> cases h2 : s == "Unknown" <;> simp [h1, h2]

/-- C4: on a failed or unparseable network call, `captureAndSendFrame`
reaches its catch block: the Match Result Store (`faces`) is exactly what
it was, an error message is surfaced, the tick reports failure, and no
other field changes. -/
theorem captureAndSendFrame_transport_failure (s : AppState) :
    (captureAndSendFrame TransportOutcome.netFail s).1.faces = s.faces ∧
    (captureAndSendFrame TransportOutcome.netFail s).1.error = some "Failed to send frame" ∧
    (captureAndSendFrame TransportOutcome.netFail s).2 = false ∧
    (captureAndSendFrame TransportOutcome.netFail s).1.activeRoom = s.activeRoom ∧
    (captureAndSendFrame TransportOutcome.netFail s).1.shouldContinue = s.shouldContinue ∧
    (captureAndSendFrame TransportOutcome.netFail s).1.isSending = s.isSending :=
  ⟨rfl, rfl, rfl, rfl, rfl, rfl⟩

/-- C6: releasing the capture source (`stopWebcam`) always lands in the
idle state: streaming off, the loop flag and `isSending` cleared, the
Match Result Store empty, the active room cleared, and the threat flag
false. -/
theorem stopWebcam_idle (s : AppState) :
    (stopWebcam s).isStreaming = false ∧
    (stopWebcam s).shouldContinue = false ∧
    (stopWebcam s).isSending = false ∧
    (stopWebcam s).faces = [] ∧
    (stopWebcam s).activeRoom = none ∧
    (stopWebcam s).securityThreat = false := by
  unfold stopWebcam stopSending
  by_cases h : s.isStreaming <;> simp [h]

/-- C10: `stopSending` clears the loop flag, `isSending` and the Match
Result Store, and changes nothing else: the camera stream, the active
room, both room lists, the selection and the error notice survive
untouched. -/
theorem stopSending_frame (s : AppState) :
    (stopSending s).shouldContinue = false ∧
    (stopSending s).isSending = false ∧
    (stopSending s).faces = [] ∧
    (stopSending s).isStreaming = s.isStreaming ∧
    (stopSending s).activeRoom = s.activeRoom ∧
    (stopSending s).defaultRooms = s.defaultRooms ∧
    (stopSending s).customRooms = s.customRooms ∧
    (stopSending s).selectedRoom = s.selectedRoom ∧
    (stopSending s).error = s.error :=
  ⟨rfl, rfl, rfl, rfl, rfl, rfl, rfl, rfl, rfl⟩

/-- C3 is refuted on the code: from a live monitoring state, `stopSending`
clears the store and the loop flag, yet a sample result delivered
afterwards is committed — `captureAndSendFrame` writes `setFaces(...)`
without consulting the controller state, so the store is repopulated. -/
theorem stop_then_late_result_cex :
    (stopSending sampleAppState).faces = [] ∧
    (stopSending sampleAppState).shouldContinue = false ∧
    ((captureAndSendFrame (TransportOutcome.ok (some [lateFace]))
        (stopSending sampleAppState)).1).faces = [lateFace] ∧
    [lateFace] ≠ ([] : List FaceMatch) :=
  ⟨rfl, rfl, rfl, by simp⟩

/-- C3 (amended): result delivery performs no controller-state check —
for every state and every in-flight result, delivering after `stop()`
overwrites the Match Result Store with the late result, even though the
controller is stopped.  (Stop itself clears the store; discarding of late
results is not implemented.) -/
theorem captureAndSendFrame_commits_after_stop (s : AppState) (fs : List FaceMatch) :
    (stopSending s).shouldContinue = false ∧
    ((captureAndSendFrame (TransportOutcome.ok (some fs))
        (stopSending s)).1).faces = fs :=
  ⟨rfl, rfl⟩

/-- Content-erasing step: a `clearAll` command empties the canvas. -/
theorem applyOp_clearAll (c : List DrawOp) (w h : Rat) :
    applyOp c (DrawOp.clearAll w h) = [] := rfl

/-- C9: the overlay renderer starts every invocation by clearing the
canvas, so the paint is a function of the inputs alone: painting twice
with identical inputs leaves exactly the single paint's content, and the
result never depends on what the canvas showed before. -/
theorem drawBoundingBoxes_idempotent (measure : String → Rat) (inp : RenderInput)
    (c1 c2 : List DrawOp) :
    paint measure inp (paint measure inp c1) = paint measure inp c1 ∧
    paint measure inp c1 = paint measure inp c2 := by
  have key : ∀ c : List DrawOp, paint measure inp c =
      ((inp.faces.map (faceOps measure inp)).flatten).foldl applyOp [] := by
    intro c
    rfl
  exact ⟨by rw [key, key c1], by rw [key c1, key c2]⟩

/-- C7: for a permanent (seeded) room id, every mutation entry point —
`deleteRoom`, `addMemberToRoom`, `removeMemberFromRoom` — hits the guard
and returns before touching anything: the whole application state,
room directory included, is left unchanged. -/
theorem permanentRoom_mutation_rejected (roomId member : String) (s : AppState)
    (h : PERMANENT_ROOM_IDS.contains roomId = true) :
    deleteRoom roomId s = s ∧
    addMemberToRoom roomId member s = s ∧
    removeMemberFromRoom roomId member s = s := by
  unfold deleteRoom addMemberToRoom removeMemberFromRoom
  rw [if_pos h, if_pos h, if_pos h]
  exact ⟨rfl, rfl, rfl⟩

/-- Witness for C7 at the seeded room id "butler" and a concrete state. -/
theorem permanentRoom_mutation_rejected_witness :
    PERMANENT_ROOM_IDS.contains "butler" = true ∧
    (deleteRoom "butler" sampleAppState = sampleAppState ∧
     addMemberToRoom "butler" "Carol" sampleAppState = sampleAppState ∧
     removeMemberFromRoom "butler" "Carol" sampleAppState = sampleAppState) :=
  ⟨by decide, permanentRoom_mutation_rejected "butler" "Carol" sampleAppState (by decide)⟩

/-- C8: the active room is a single optional value, and the resync effect
restores it against the current directory before the next evaluation: with
no active room nothing changes, an active room whose id vanished from the
directory is cleared to none, and an active room still present is replaced
by the directory's current copy, updated members included. -/
theorem activeRoom_resync (rooms : List Room) (ar : Room) :
    syncActiveRoom rooms none = none ∧
    ((∀ r ∈ rooms, r.id ≠ ar.id) → syncActiveRoom rooms (some ar) = none) ∧
    (∀ u, rooms.find? (fun r => r.id == ar.id) = some u →
      syncActiveRoom rooms (some ar) = some u) := by
  refine ⟨rfl, ?_, ?_⟩
  · intro hnone
    unfold syncActiveRoom
    have hany : rooms.any (fun r => r.id == ar.id) = false := by
      simp only [List.any_eq_false]
      intro r hr
      simpa using hnone r hr
    simp [hany]
  · intro u hu
    have hp := @List.find?_some Room (fun r => r.id == ar.id) u rooms hu
    have hmem : u ∈ rooms := List.mem_of_find?_eq_some hu
    have hany : rooms.any (fun r => r.id == ar.id) = true :=
      List.any_eq_true.mpr ⟨u, hmem, hp⟩
    simp [syncActiveRoom, hany, hu]

/-- C2 is refuted on the code: a face whose matchedIdentity is the empty
string — a present string, distinct from "Unknown", and a member of the
active room — is still classified unauthorized, because the source guards
with JavaScript truthiness (`face.match_filename && ...`) and the empty
string is falsy. -/
theorem isAuthorized_empty_identity_cex :
    isAuthorized (some { id := "r2", name := "R2", members := [""] })
      { x := 0, y := 0, width := 2, height := 2,
        match_filename := some "", match_score := 1 } = false ∧
    ([""] : List String).contains "" = true ∧
    ("" : String) ≠ "Unknown" ∧
    (some "" : Option String) ≠ none := by
  refine ⟨rfl, rfl, by decide, by decide⟩

/-- C2 (amended): a face is authorized iff no room is active, or its
matchedIdentity is present, non-empty, not "Unknown", and a member of the
active room (the code treats an empty-string identity like an absent one);
an absent matchedIdentity is classified exactly like "Unknown", and the
overlay coloring and the threat computation use the same classification. -/
theorem isAuthorized_characterization (active : Option Room) (face : FaceMatch) :
    isAuthorized none face = true ∧
    (∀ room : Room, isAuthorized (some room) face = true ↔
      ∃ s, face.match_filename = some s ∧ s ≠ "" ∧ s ≠ "Unknown" ∧ s ∈ room.members) ∧
    (∀ room : Room, faceAuthorizedForThreat room face = isAuthorized (some room) face) ∧
    isAuthorized active { face with match_filename := none } =
      isAuthorized active { face with match_filename := some "Unknown" } := by
  refine ⟨rfl, ?_, fun room => faceAuthorizedForThreat_eq room face, ?_⟩
  · intro room
    unfold isAuthorized
    cases h : face.match_filename with
    | none => simp
    | some s => simp [and_assoc]
  · cases active with
    | none => rfl
    | some room => rfl

/-- C1 is refuted on the code: with an active room whose member list holds
the empty string and a single detected face matched as the empty string —
an identity that is present, distinct from "Unknown", and a member of the
active room — the threat flag is true, where the claim requires false. -/
theorem securityThreat_empty_identity_cex :
    securityThreat (some { id := "r1", name := "R1", members := [""] })
      [{ x := 0, y := 0, width := 1, height := 1,
         match_filename := some "", match_score := 1 }] = true ∧
    ([""] : List String).contains "" = true ∧
    ("" : String) ≠ "Unknown" ∧
    (some "" : Option String) ≠ none := by
  refine ⟨rfl, rfl, by decide, by decide⟩

/-- C1 (amended): the room-level threat flag is true iff a room is active,
the detection list is non-empty, and none of the detected faces is
authorized in the sense the code computes (present, non-empty, not
"Unknown", member of the active room); with no active room or an empty
list the flag is false regardless of prior state. -/
theorem securityThreat_iff (active : Option Room) (faces : List FaceMatch) :
    securityThreat active faces = true ↔
      active.isSome = true ∧ faces ≠ [] ∧
        ∀ face ∈ faces, isAuthorized active face = false := by
  cases active with
  | none => simp [securityThreat]
  | some room =>
    unfold securityThreat
    rcases faces with _ | ⟨f, rest⟩
    · simp
    · have hc : ((f :: rest).length == 0) = false := by simp
      simp [hc, List.any_eq_false, faceAuthorizedForThreat_eq, Bool.not_eq_true]

/-- One interval per sample: the schedule of a run has as many entries as
the run had samples. -/
theorem sampleSchedule_length (t : Nat) (ds : List Nat) :
    (sampleSchedule t ds).length = ds.length := by
  induction ds generalizing t with
  | nil => rfl
  | cons d rest ih => simp [sampleSchedule, ih]

/-- Every sample of a loop started at time `t` starts no earlier than
`t`. -/
theorem sampleSchedule_start_le (t : Nat) (ds : List Nat) (i : Nat)
    (h : i < (sampleSchedule t ds).length) :
    t ≤ ((sampleSchedule t ds).get ⟨i, h⟩).1 := by
  induction ds generalizing t i with
  | nil => simp [sampleSchedule] at h
  | cons d rest ih =>
    cases i with
    | zero => exact Nat.le_refl t
    | succ n =>
      have h2 : n < (sampleSchedule (t + d + 500) rest).length := by
        have := h
        simp only [sampleSchedule, List.length_cons] at this
        omega
      exact Nat.le_trans (by omega) (ih (t + d + 500) n h2)

/-- Each sample after the first starts exactly 500 ms after the previous
sample completed. -/
theorem sampleSchedule_spacing (t : Nat) (ds : List Nat) (i : Nat)
    (h1 : i < (sampleSchedule t ds).length)
    (h2 : i + 1 < (sampleSchedule t ds).length) :
    ((sampleSchedule t ds).get ⟨i + 1, h2⟩).1 =
      ((sampleSchedule t ds).get ⟨i, h1⟩).2 + 500 := by
  induction ds generalizing t i with
  | nil => simp [sampleSchedule] at h1
  | cons d rest ih =>
    cases i with
    | zero =>
      cases rest with
      | nil =>
        simp only [sampleSchedule, List.length_cons, List.length_nil] at h2
        omega
      | cons d2 r2 => rfl
    | succ n =>
      have g1 : n < (sampleSchedule (t + d + 500) rest).length := by
        have := h1
        simp only [sampleSchedule, List.length_cons] at this
        omega
      have g2 : n + 1 < (sampleSchedule (t + d + 500) rest).length := by
        have := h2
        simp only [sampleSchedule, List.length_cons] at this
        omega
      exact ih (t + d + 500) n g1 g2

/-- Sample intervals never overlap: an earlier sample completes before a
later one starts. -/
theorem sampleSchedule_mono (t : Nat) (ds : List Nat) (i j : Nat)
    (hi : i < (sampleSchedule t ds).length)
    (hj : j < (sampleSchedule t ds).length) (hij : i < j) :
    ((sampleSchedule t ds).get ⟨i, hi⟩).2 ≤ ((sampleSchedule t ds).get ⟨j, hj⟩).1 := by
  induction ds generalizing t i j with
  | nil => simp [sampleSchedule] at hi
  | cons d rest ih =>
    cases i with
    | zero =>
      cases j with
      | zero => omega
      | succ m =>
        have hm : m < (sampleSchedule (t + d + 500) rest).length := by
          have := hj
          simp only [sampleSchedule, List.length_cons] at this
          omega
        have hs := sampleSchedule_start_le (t + d + 500) rest m hm
        show t + d ≤ ((sampleSchedule (t + d + 500) rest).get ⟨m, hm⟩).1
        omega
    | succ n =>
      cases j with
      | zero => omega
      | succ m =>
        have g1 : n < (sampleSchedule (t + d + 500) rest).length := by
          have := hi
          simp only [sampleSchedule, List.length_cons] at this
          omega
        have g2 : m < (sampleSchedule (t + d + 500) rest).length := by
          have := hj
          simp only [sampleSchedule, List.length_cons] at this
          omega
        exact ih (t + d + 500) n m g1 g2 (by omega)

/-- C5: in every run of `runContinuousCapture` started at time `t`, the
first sample starts immediately at `t`; every following sample starts
exactly 500 ms after the completion of the previous one (the delay is
self-paced, measured from completion, not from wall-clock ticks); and no
two sample intervals overlap, so at most one sample request is
outstanding at any moment of the run. -/
theorem runContinuousCapture_pacing (t : Nat) (ds : List Nat) :
    (∀ d rest, ds = d :: rest → (sampleSchedule t ds).head? = some (t, t + d)) ∧
    (∀ i (h1 : i < (sampleSchedule t ds).length)
        (h2 : i + 1 < (sampleSchedule t ds).length),
      ((sampleSchedule t ds).get ⟨i + 1, h2⟩).1 =
        ((sampleSchedule t ds).get ⟨i, h1⟩).2 + 500) ∧
    (∀ i j (hi : i < (sampleSchedule t ds).length)
        (hj : j < (sampleSchedule t ds).length), i < j →
      ((sampleSchedule t ds).get ⟨i, hi⟩).2 ≤ ((sampleSchedule t ds).get ⟨j, hj⟩).1) := by
  refine ⟨?_, ?_, ?_⟩
  · intro d rest h
    subst h
    rfl
  · intro i h1 h2
    exact sampleSchedule_spacing t ds i h1 h2
  · intro i j hi hj hij
    exact sampleSchedule_mono t ds i j hi hj hij
